import Mathlib

/-!
Verification of the observable-collection library (`observable::collection`
from `collection.hpp` and the spec of the surrounding `value`/`subject`
layers).

The element type is fixed to `ℕ` and the default container
(`std::unordered_set`) is modelled as `Finset ℕ`: the container's own
insertion/removal semantics (reject duplicates, erase by equality) are
exactly `Finset.insert` / `Finset.erase`.

Notification calls (`change_observers_.notify(..)`, `void_observers_.notify()`,
`value_observers_.notify(value_)`, and the spec's old-and-new-value stream)
are embedded as an ordered trace of `Event`s emitted by each operation;
`dispatch`/`run` fan each event out to the observers registered on the
corresponding stream, producing the list of observer invocations in order.
-/

namespace Observable

/-- One `notify` call on one of the collection's notification streams, in
the order the source performs them.
`elem v inserted` is `change_observers_.notify(v, inserted)`;
`voidN` is `void_observers_.notify()`;
`valueN s` is `value_observers_.notify(value_)` with `value_ = s`;
`oldNewN old new` is the spec's old-and-new-value whole-value stream. -/
inductive Event where
  | elem (v : ℕ) (inserted : Bool)
  | voidN
  | valueN (s : Finset ℕ)
  | oldNewN (old : Finset ℕ) (new : Finset ℕ)
  deriving DecidableEq

/-- Observable collection state.

`value_` is the inherited stored container (`value<container_type>::value_`).

`has_updater` is modelled from the spec: `value.hpp` is not among the
sources; per spec §3/§4.2 a Value optionally carries an external *updater*
function, and while one is present the Value is read-only. Only the flag is
relevant here, not the updater function itself. -/
structure Collection where
  value_ : Finset ℕ
  has_updater : Bool
  deriving DecidableEq

/-- `collection::insert_impl` (collection.hpp lines 93–105):
`value_.insert(new_value)` returns `(it, inserted)`; when `inserted`, it
notifies `change_observers_` with `(*it, true)`, then `void_observers_`,
then `value_observers_` with the (new) `value_`. The result is `inserted`.
No read-only/updater check appears anywhere on this path. -/
def insert_impl (c : Collection) (v : ℕ) : Bool × Collection × List Event :=
  if v ∈ c.value_ then
    (false, c, [])
  else
    let c' : Collection := { c with value_ := insert v c.value_ }
    (true, c', [Event.elem v true, Event.voidN, Event.valueN c'.value_])

/-- `collection::emplace_impl` (collection.hpp lines 107–119):
`value_.emplace(new_value)` — for the set container, constructing from an
already-materialised `ValueType` and inserting it, i.e. the same container
mutation as `insert` — then the identical notification sequence. -/
def emplace_impl (c : Collection) (v : ℕ) : Bool × Collection × List Event :=
  if v ∈ c.value_ then
    (false, c, [])
  else
    let c' : Collection := { c with value_ := insert v c.value_ }
    (true, c', [Event.elem v true, Event.voidN, Event.valueN c'.value_])

/-- `collection::remove_impl`, C++20 branch (collection.hpp lines 122–136):
`value_.extract(value)` detaches the node holding the element equal to
`value` (when present); on success it notifies `change_observers_` with
`(nh.value(), false)` — the extracted element, still alive in the node
handle — then `void_observers_`, then `value_observers_` with the
post-removal `value_`. For `ℕ` elements the stored element equal to `v`
is `v` itself. -/
def remove_impl (c : Collection) (v : ℕ) : Bool × Collection × List Event :=
  if v ∈ c.value_ then
    let c' : Collection := { c with value_ := c.value_.erase v }
    (true, c', [Event.elem v false, Event.voidN, Event.valueN c'.value_])
  else
    (false, c, [])

/-- `collection::remove_impl`, pre-C++20 branch (collection.hpp lines
138–159): `find` the element; if found, notify `change_observers_` with
`(*found_it, false)` *before* erasing it (the comment in the source makes
this ordering explicit), then erase, then notify `void_observers_` and
`value_observers_` with the post-removal container. -/
def remove_impl_pre20 (c : Collection) (v : ℕ) : Bool × Collection × List Event :=
  if v ∈ c.value_ then
    let c' : Collection := { c with value_ := c.value_.erase v }
    (true, c', [Event.elem v false, Event.voidN, Event.valueN c'.value_])
  else
    (false, c, [])

/-- Observer registrations, one list of observer ids per notification
stream, each in subscription order. `changeObs` backs `change_observers_`
(the element-level `subject<void(ValueType const&, bool)>`); the other
three back the whole-value streams of the inherited `value`
(per spec §6 the recognized whole-value shapes are `()`,
`(T const& new_value)` and `(T const& old_value, T const& new_value)`). -/
structure Observers where
  changeObs : List ℕ
  voidObs : List ℕ
  valueObs : List ℕ
  oldNewObs : List ℕ
  deriving DecidableEq

/-- One observer callback invocation: which observer id ran and with which
payload. -/
inductive Invocation where
  | changeCall (id : ℕ) (v : ℕ) (inserted : Bool)
  | voidCall (id : ℕ)
  | valueCall (id : ℕ) (s : Finset ℕ)
  | oldNewCall (id : ℕ) (old : Finset ℕ) (new : Finset ℕ)
  deriving DecidableEq

/-- Fan one `notify` call out to every observer registered on its stream,
in subscription order (`subject::notify` invokes registered callbacks in
subscription order). -/
def dispatch (obs : Observers) : Event → List Invocation
  | Event.elem v b => obs.changeObs.map (fun i => Invocation.changeCall i v b)
  | Event.voidN => obs.voidObs.map (fun i => Invocation.voidCall i)
  | Event.valueN s => obs.valueObs.map (fun i => Invocation.valueCall i s)
  | Event.oldNewN o n => obs.oldNewObs.map (fun i => Invocation.oldNewCall i o n)

/-- All observer invocations produced by a trace of notify calls, in
order. -/
def run (obs : Observers) (events : List Event) : List Invocation :=
  events.flatMap (dispatch obs)

/-- `collection::subscribe_changes` (collection.hpp lines 37–45, 87–91):
a `const` member; it only registers the observer on the `mutable`
element-level subject `change_observers_` (line 162) and leaves the
collection itself — in particular the stored container — untouched. -/
def subscribe_changes (c : Collection) (obs : Observers) (id : ℕ) :
    Collection × Observers :=
  (c, { obs with changeObs := obs.changeObs ++ [id] })

/-- Modelled from the spec: `value.hpp` is not among the sources.
Spec §4.2 `value::set` (inherited unchanged by collection, §4.3): if an
updater is configured the call fails with `ReadOnlyValue` and leaves state
unchanged; otherwise it compares the new container to the current one —
if equal, a no-op with no notification; if different, it commits the new
container and notifies every whole-value stream exactly once each. The
element-level stream is private to `collection` (collection.hpp line 162)
and `set` never touches it. -/
def set (c : Collection) (s : Finset ℕ) :
    Except Unit (Collection × List Event) :=
  if c.has_updater then
    Except.error ()
  else if s = c.value_ then
    Except.ok (c, [])
  else
    Except.ok ({ c with value_ := s },
      [Event.voidN, Event.valueN s, Event.oldNewN c.value_ s])

/-- Modelled from the spec: `value.hpp` is not among the sources.
Spec §4.1/§4.2 `subscribe_and_call` (inherited by collection): registers
the observer on the whole-value stream matching its shape, then
immediately and synchronously invokes it exactly once with the current
stored container, before the subscription handle is returned. This is the
new-value shape. -/
def subscribe_and_call (c : Collection) (obs : Observers) (id : ℕ) :
    Observers × List Invocation :=
  ({ obs with valueObs := obs.valueObs ++ [id] },
   [Invocation.valueCall id c.value_])

/-- Modelled from the spec: `value.hpp` is not among the sources.
Spec §4.1/§4.2 `subscribe_and_call`, no-argument shape: registers the
observer on the no-argument stream and immediately invokes it once (with
no payload). -/
def subscribe_and_call_void (c : Collection) (obs : Observers) (id : ℕ) :
    Observers × List Invocation :=
  ({ obs with voidObs := obs.voidObs ++ [id] },
   [Invocation.voidCall id])

/-! ### Subject dispatch with reentrant subscription changes

Modelled from the spec: the `subject` header is not among the sources.
Spec §3/§4.1/§5: a Subject owns an ordered collection of registrations;
`notify` invokes every callback registered at call time, in subscription
order, and must tolerate callbacks that unsubscribe themselves or others
and callbacks that subscribe new observers (the new ones are excluded from
the in-progress dispatch). A registration is identified by an id;
re-subscribing always produces a fresh id, so ids of subscriptions created
during a dispatch are not among the ids the dispatch started with.

Callbacks are modelled by their effect on the registration list: which ids
they unsubscribe and which (fresh) ids they subscribe, given by an
environment `env : ℕ → Effect`. `notify` iterates over a snapshot of the
registration list taken when it begins, and invokes an id only if it is
still registered when its turn comes. -/

/-- What one callback does to the subject's registrations when invoked:
the ids it unsubscribes and the (fresh) ids it subscribes. -/
structure Effect where
  unsubs : List ℕ
  subs : List ℕ
  deriving DecidableEq

/-- Apply one callback's subscription changes to the registration list:
unsubscribed ids are removed, newly subscribed ids are appended in
subscription order. -/
def applyEffect (e : Effect) (regs : List ℕ) : List ℕ :=
  (regs.filter (fun i => i ∉ e.unsubs)) ++ e.subs

/-- The in-progress dispatch: walk the snapshot taken when `notify` began;
invoke an id only if it is still registered, applying its effect to the
live registration list. Returns the invocation log (in order) and the
final registration list. -/
def notifyGo (env : ℕ → Effect) : List ℕ → List ℕ → List ℕ × List ℕ
  | [], regs => ([], regs)
  | i :: rest, regs =>
    if i ∈ regs then
      let r := notifyGo env rest (applyEffect (env i) regs)
      (i :: r.1, r.2)
    else
      notifyGo env rest regs

/-- `subject::notify`: dispatch over the snapshot of the registrations at
call time, starting from those same registrations as the live list. -/
def notify (env : ℕ → Effect) (regs : List ℕ) : List ℕ × List ℕ :=
  notifyGo env regs regs

/-- Whether an event is an element-level (`change_observers_`) notification. -/
def isElemEvent : Event → Bool
  | Event.elem _ _ => true
  | _ => false

/-- Whether an invocation ran an element-level observer. -/
def isChangeCall : Invocation → Bool
  | Invocation.changeCall _ _ _ => true
  | _ => false

/-- Whether an invocation ran an old-and-new-value observer. -/
def isOldNewCall : Invocation → Bool
  | Invocation.oldNewCall _ _ _ => true
  | _ => false

/-- A sample callback environment for concrete dispatches: callback 1
unsubscribes callback 2 and subscribes a fresh callback 4; every other
callback leaves the registrations alone. -/
def env0 : ℕ → Effect :=
  fun i => if i = 1 then ⟨[2], [4]⟩ else ⟨[], []⟩

/-! ### Theorems -/

/-- C3: the element-level notification fires if and only if the call
actually changed the container's membership. A duplicate `insert` returns
`false`, leaves the container (and the whole collection state) unchanged,
and fires zero observers on any stream; a `remove` of an absent element
likewise; a membership-changing call emits exactly one element-level
notification. -/
theorem elem_stream_iff_membership_changed (c : Collection) (v : ℕ)
    (obs : Observers) :
    ((insert_impl c v).2.2.countP isElemEvent = if v ∈ c.value_ then 0 else 1)
    ∧ ((remove_impl c v).2.2.countP isElemEvent = if v ∈ c.value_ then 1 else 0)
    ∧ (v ∈ c.value_ →
        insert_impl c v = (false, c, [])
        ∧ run obs (insert_impl c v).2.2 = [])
    ∧ (v ∉ c.value_ →
        remove_impl c v = (false, c, [])
        ∧ run obs (remove_impl c v).2.2 = []) := by
  by_cases h : v ∈ c.value_ <;>
    simp [insert_impl, remove_impl, h, run, isElemEvent]

/-- Witness for C3 at `{1,2,3}` with `v = 3` (duplicate insert). -/
theorem elem_stream_iff_membership_changed_witness :
    (3 ∈ ({1, 2, 3} : Finset ℕ))
    ∧ (insert_impl ⟨{1, 2, 3}, false⟩ 3 = (false, ⟨{1, 2, 3}, false⟩, [])
        ∧ run ⟨[9], [8], [7], [6]⟩ (insert_impl ⟨{1, 2, 3}, false⟩ 3).2.2 = []) :=
  ⟨by decide,
   (elem_stream_iff_membership_changed ⟨{1, 2, 3}, false⟩ 3
     ⟨[9], [8], [7], [6]⟩).2.2.1 (by decide)⟩

/-- C4: whenever the element-level stream fires, the inherited whole-value
notifications follow, each exactly once, after it: every successful
`insert`/`remove` trace is exactly element-level notification, then the
no-argument notification, then the new-value notification carrying the
post-mutation container. For a successful remove the element-level payload
is the removed element's value — an element of the pre-removal container
(`v ∈ c.value_`), read out before the storage is released: the pre-C++20
branch (notify from the live iterator, then erase) and the C++20 branch
(extract the node, then notify from it) produce identical results. -/
theorem whole_value_follows_elem_stream (c : Collection) (v : ℕ) :
    ((insert_impl c v).2.2 = []
      ∨ (insert_impl c v).2.2 =
          [Event.elem v true, Event.voidN, Event.valueN (insert v c.value_)])
    ∧ ((remove_impl c v).2.2 = []
      ∨ (remove_impl c v).2.2 =
          [Event.elem v false, Event.voidN, Event.valueN (c.value_.erase v)])
    ∧ (v ∈ c.value_ →
        remove_impl c v =
          (true, ⟨c.value_.erase v, c.has_updater⟩,
           [Event.elem v false, Event.voidN, Event.valueN (c.value_.erase v)]))
    ∧ remove_impl_pre20 c v = remove_impl c v := by
  by_cases h : v ∈ c.value_ <;>
    simp [insert_impl, remove_impl, remove_impl_pre20, h]

/-- Witness for C4 at `{1,2,3}` with `v = 3` (successful remove). -/
theorem whole_value_follows_elem_stream_witness :
    (3 ∈ ({1, 2, 3} : Finset ℕ))
    ∧ remove_impl ⟨{1, 2, 3}, false⟩ 3 =
        (true, ⟨Finset.erase {1, 2, 3} 3, false⟩,
         [Event.elem 3 false, Event.voidN,
          Event.valueN (Finset.erase {1, 2, 3} 3)]) :=
  ⟨by decide,
   (whole_value_follows_elem_stream ⟨{1, 2, 3}, false⟩ 3).2.2.1 (by decide)⟩

/-- C5 (supporting theorem): `emplace_impl` computes exactly the same
result — return value, container state and notification trace — as
`insert_impl`, on every collection state and element. -/
theorem emplace_impl_equals_insert_impl :
    ∀ (c : Collection) (v : ℕ), emplace_impl c v = insert_impl c v :=
  fun _ _ => rfl

/-- C6 counterexample: with the collection `{1,2,3}` and `x = 3` — an
element already present — `insert(3)` returns `false` (not `true`) and the
subsequent `remove(3)` leaves `{1,2}`, different from the state before the
pair of calls. -/
theorem insert_remove_round_trip_cex :
    (insert_impl ⟨{1, 2, 3}, false⟩ 3).1 = false
    ∧ (remove_impl (insert_impl ⟨{1, 2, 3}, false⟩ 3).2.1 3).2.1.value_ ≠
        ({1, 2, 3} : Finset ℕ) := by
  decide

/-- C6 (amended): for an element `x` *not already present*,
`collection.insert(x)` followed by `collection.remove(x)` returns
`(true, true)` and restores the collection to its state before the pair of
calls. -/
theorem insert_remove_round_trip (c : Collection) (v : ℕ)
    (h : v ∉ c.value_) :
    (insert_impl c v).1 = true
    ∧ (remove_impl (insert_impl c v).2.1 v).1 = true
    ∧ (remove_impl (insert_impl c v).2.1 v).2.1 = c := by
  simp [insert_impl, remove_impl, h, Finset.erase_insert h]

/-- Witness for C6 at `{1,2,3}` with `v = 4`. -/
theorem insert_remove_round_trip_witness :
    (4 ∉ ({1, 2, 3} : Finset ℕ))
    ∧ ((insert_impl ⟨{1, 2, 3}, false⟩ 4).1 = true
        ∧ (remove_impl (insert_impl ⟨{1, 2, 3}, false⟩ 4).2.1 4).1 = true
        ∧ (remove_impl (insert_impl ⟨{1, 2, 3}, false⟩ 4).2.1 4).2.1 =
            ⟨{1, 2, 3}, false⟩) :=
  ⟨by decide, insert_remove_round_trip ⟨{1, 2, 3}, false⟩ 4 (by decide)⟩

/-- C1 (divergence witness): on a collection whose inherited Value is
updater-driven (`has_updater = true`), `insert`, `emplace` and `remove`
all succeed, mutate the stored container and notify observers — the
read-only check promised by their own doc comments (`\throw
readonly_value if the value has an associated updater`) is absent from
`insert_impl`/`emplace_impl`/`remove_impl`, while the spec-modelled `set`
on the same state does fail with `ReadOnlyValue`. -/
theorem mutation_ignores_updater :
    (insert_impl ⟨{1, 2, 3}, true⟩ 4).1 = true
    ∧ (insert_impl ⟨{1, 2, 3}, true⟩ 4).2.1.value_ = insert 4 {1, 2, 3}
    ∧ (insert_impl ⟨{1, 2, 3}, true⟩ 4).2.2 ≠ []
    ∧ (emplace_impl ⟨{1, 2, 3}, true⟩ 4).1 = true
    ∧ (remove_impl ⟨{1, 2, 3}, true⟩ 3).1 = true
    ∧ (remove_impl ⟨{1, 2, 3}, true⟩ 3).2.1.value_ = Finset.erase {1, 2, 3} 3
    ∧ set ⟨{1, 2, 3}, true⟩ {1, 2, 3, 4} = Except.error () :=
  ⟨by decide, by decide, by decide, by decide, by decide, by decide, rfl⟩

/-- A successful insert dispatches, in order: every element-level
observer, then every no-argument observer, then every new-value
observer — and nothing else. -/
theorem run_insert_success (c : Collection) (v : ℕ) (obs : Observers)
    (h : v ∉ c.value_) :
    run obs (insert_impl c v).2.2 =
      obs.changeObs.map (fun i => Invocation.changeCall i v true)
      ++ (obs.voidObs.map (fun i => Invocation.voidCall i)
        ++ obs.valueObs.map (fun i => Invocation.valueCall i (insert v c.value_))) := by
  simp [insert_impl, h, run, dispatch]

/-- A successful remove dispatches, in order: every element-level
observer, then every no-argument observer, then every new-value
observer — and nothing else. -/
theorem run_remove_success (c : Collection) (v : ℕ) (obs : Observers)
    (h : v ∈ c.value_) :
    run obs (remove_impl c v).2.2 =
      obs.changeObs.map (fun i => Invocation.changeCall i v false)
      ++ (obs.voidObs.map (fun i => Invocation.voidCall i)
        ++ obs.valueObs.map (fun i => Invocation.valueCall i (c.value_.erase v))) := by
  simp [remove_impl, h, run, dispatch]

@[simp] theorem count_voidCall_map_voidCall (l : List ℕ) (id : ℕ) :
    (l.map (fun i => Invocation.voidCall i)).count (Invocation.voidCall id)
      = l.count id :=
  List.count_map_of_injective l (fun i => Invocation.voidCall i)
    (fun a b hab => by injection hab) id

@[simp] theorem count_valueCall_map_valueCall (l : List ℕ) (id : ℕ)
    (s : Finset ℕ) :
    (l.map (fun i => Invocation.valueCall i s)).count
        (Invocation.valueCall id s) = l.count id :=
  List.count_map_of_injective l (fun i => Invocation.valueCall i s)
    (fun a b hab => by injection hab) id

@[simp] theorem count_voidCall_map_changeCall (l : List ℕ) (v : ℕ) (b : Bool)
    (id : ℕ) :
    (l.map (fun i => Invocation.changeCall i v b)).count
        (Invocation.voidCall id) = 0 := by
  rw [List.count_eq_zero]
  simp

@[simp] theorem count_voidCall_map_valueCall (l : List ℕ) (s : Finset ℕ)
    (id : ℕ) :
    (l.map (fun i => Invocation.valueCall i s)).count
        (Invocation.voidCall id) = 0 := by
  rw [List.count_eq_zero]
  simp

@[simp] theorem count_valueCall_map_changeCall (l : List ℕ) (v : ℕ) (b : Bool)
    (id : ℕ) (s : Finset ℕ) :
    (l.map (fun i => Invocation.changeCall i v b)).count
        (Invocation.valueCall id s) = 0 := by
  rw [List.count_eq_zero]
  simp

@[simp] theorem count_valueCall_map_voidCall (l : List ℕ) (id : ℕ)
    (s : Finset ℕ) :
    (l.map (fun i => Invocation.voidCall i)).count
        (Invocation.valueCall id s) = 0 := by
  rw [List.count_eq_zero]
  simp

/-- C2 counterexample: with one observer registered (exactly once) on the
old-and-new-value whole-value stream, a successful `insert(4)` on
`{1,2,3}` invokes it zero times, not once: `insert_impl` notifies only
the element-level, no-argument and new-value subjects. -/
theorem whole_value_shapes_cex :
    (insert_impl ⟨{1, 2, 3}, false⟩ 4).1 = true
    ∧ (⟨[], [], [], [6]⟩ : Observers).oldNewObs.count 6 = 1
    ∧ ¬ ((run ⟨[], [], [], [6]⟩ (insert_impl ⟨{1, 2, 3}, false⟩ 4).2.2).countP
          isOldNewCall = 1) := by
  decide

/-- C2 (amended): on every successful insert or remove, after the
element-level notification the no-argument and the new-value whole-value
streams are each notified exactly once — an observer registered `n` times
on one of those streams is invoked exactly `n` times, with the new
container — while the old-and-new-value stream is not notified at all. -/
theorem whole_value_shapes_on_mutation (c : Collection) (v : ℕ)
    (obs : Observers) (id : ℕ) :
    (v ∉ c.value_ →
      (run obs (insert_impl c v).2.2).count (Invocation.voidCall id)
          = obs.voidObs.count id
        ∧ (run obs (insert_impl c v).2.2).count
            (Invocation.valueCall id (insert v c.value_))
          = obs.valueObs.count id
        ∧ (run obs (insert_impl c v).2.2).countP isOldNewCall = 0)
    ∧ (v ∈ c.value_ →
      (run obs (remove_impl c v).2.2).count (Invocation.voidCall id)
          = obs.voidObs.count id
        ∧ (run obs (remove_impl c v).2.2).count
            (Invocation.valueCall id (c.value_.erase v))
          = obs.valueObs.count id
        ∧ (run obs (remove_impl c v).2.2).countP isOldNewCall = 0) := by
  constructor <;> intro h
  · rw [run_insert_success c v obs h]
    refine ⟨?_, ?_, ?_⟩ <;>
      simp [List.count_append, List.count_eq_zero, List.mem_map,
        count_voidCall_map_voidCall, count_valueCall_map_valueCall,
        List.countP_append, List.countP_map, isOldNewCall, Function.comp]
  · rw [run_remove_success c v obs h]
    refine ⟨?_, ?_, ?_⟩ <;>
      simp [List.count_append, List.count_eq_zero, List.mem_map,
        count_voidCall_map_voidCall, count_valueCall_map_valueCall,
        List.countP_append, List.countP_map, isOldNewCall, Function.comp]

/-- Witness for C2 (amended) at `{1,2,3}`, inserting `4`, with one
observer on each stream. -/
theorem whole_value_shapes_on_mutation_witness :
    (4 ∉ ({1, 2, 3} : Finset ℕ))
    ∧ ((run ⟨[9], [8], [7], [6]⟩ (insert_impl ⟨{1, 2, 3}, false⟩ 4).2.2).count
          (Invocation.voidCall 8)
        = (⟨[9], [8], [7], [6]⟩ : Observers).voidObs.count 8
      ∧ (run ⟨[9], [8], [7], [6]⟩ (insert_impl ⟨{1, 2, 3}, false⟩ 4).2.2).count
          (Invocation.valueCall 7 (insert 4 {1, 2, 3}))
        = (⟨[9], [8], [7], [6]⟩ : Observers).valueObs.count 7
      ∧ (run ⟨[9], [8], [7], [6]⟩
            (insert_impl ⟨{1, 2, 3}, false⟩ 4).2.2).countP isOldNewCall = 0) :=
  ⟨by decide,
   (whole_value_shapes_on_mutation ⟨{1, 2, 3}, false⟩ 4
     ⟨[9], [8], [7], [6]⟩ 8).1 (by decide) |>.1,
   (whole_value_shapes_on_mutation ⟨{1, 2, 3}, false⟩ 4
     ⟨[9], [8], [7], [6]⟩ 7).1 (by decide) |>.2.1,
   (whole_value_shapes_on_mutation ⟨{1, 2, 3}, false⟩ 4
     ⟨[9], [8], [7], [6]⟩ 6).1 (by decide) |>.2.2⟩

/-- C7: `set` with a replacement container never fires the element-level
stream (no successful `set` trace contains an element-level event), and
fires the whole-value streams only when the new container differs from the
old one; setting an equal container is a complete no-op with an empty
trace, and a genuinely different container yields exactly the whole-value
notifications carrying the new container. -/
theorem set_never_fires_elem_stream (c : Collection) (s : Finset ℕ) :
    (∀ c' evs, set c s = Except.ok (c', evs) →
        evs.countP isElemEvent = 0 ∧ (evs ≠ [] → s ≠ c.value_))
    ∧ (c.has_updater = false → s = c.value_ → set c s = Except.ok (c, []))
    ∧ (c.has_updater = false → s ≠ c.value_ →
        set c s = Except.ok ({ c with value_ := s },
          [Event.voidN, Event.valueN s, Event.oldNewN c.value_ s])) := by
  by_cases hu : c.has_updater <;> by_cases he : s = c.value_ <;>
    simp [set, hu, he, isElemEvent]

/-- Witness for C7 at `{1,2,3}` with an equal replacement container
(zero observers fired on every stream). -/
theorem set_never_fires_elem_stream_witness :
    ((⟨{1, 2, 3}, false⟩ : Collection).has_updater = false
      ∧ ({1, 2, 3} : Finset ℕ) = (⟨{1, 2, 3}, false⟩ : Collection).value_)
    ∧ set ⟨{1, 2, 3}, false⟩ {1, 2, 3} =
        Except.ok ((⟨{1, 2, 3}, false⟩ : Collection), []) :=
  ⟨⟨by decide, by decide⟩,
   (set_never_fires_elem_stream ⟨{1, 2, 3}, false⟩ {1, 2, 3}).2.1
     (by decide) (by decide)⟩

/-- C8: `subscribe_and_call` registers the observer on the whole-value
stream matching its shape and invokes it exactly once, synchronously,
during the subscribe call itself (the invocation is part of the call's
own result, produced before the handle is returned), with the current
stored container — or with no arguments for the no-argument shape. -/
theorem subscribe_and_call_immediate (c : Collection) (obs : Observers)
    (id : ℕ) :
    (subscribe_and_call c obs id).2 = [Invocation.valueCall id c.value_]
    ∧ (subscribe_and_call c obs id).1 =
        { obs with valueObs := obs.valueObs ++ [id] }
    ∧ (subscribe_and_call_void c obs id).2 = [Invocation.voidCall id]
    ∧ (subscribe_and_call_void c obs id).1 =
        { obs with voidObs := obs.voidObs ++ [id] } :=
  ⟨rfl, rfl, rfl, rfl⟩

/-- C10: `subscribe_changes` operates through a `const` reference — it
leaves the collection state untouched, registering the observer only on
the `mutable` element-level subject — and the observer registered that way
is still invoked by subsequent mutations performed through the non-const
interface: a later successful `insert` invokes it with `(v, true)` and a
later successful `remove` invokes it with `(w, false)`. -/
theorem subscribe_changes_const_then_notified (c : Collection)
    (obs : Observers) (id : ℕ) (v w : ℕ) :
    (subscribe_changes c obs id).1 = c
    ∧ (v ∉ c.value_ →
        Invocation.changeCall id v true ∈
          run (subscribe_changes c obs id).2 (insert_impl c v).2.2)
    ∧ (w ∈ c.value_ →
        Invocation.changeCall id w false ∈
          run (subscribe_changes c obs id).2 (remove_impl c w).2.2) := by
  refine ⟨rfl, fun h => ?_, fun h => ?_⟩ <;>
    simp [insert_impl, remove_impl, h, run, dispatch, subscribe_changes]

/-- Witness for C10 at `{1,2,3}`, observer id `5`, inserting `4`. -/
theorem subscribe_changes_const_then_notified_witness :
    (4 ∉ ({1, 2, 3} : Finset ℕ))
    ∧ Invocation.changeCall 5 4 true ∈
        run (subscribe_changes ⟨{1, 2, 3}, false⟩ ⟨[9], [8], [7], [6]⟩ 5).2
          (insert_impl ⟨{1, 2, 3}, false⟩ 4).2.2 :=
  ⟨by decide,
   (subscribe_changes_const_then_notified ⟨{1, 2, 3}, false⟩
     ⟨[9], [8], [7], [6]⟩ 5 4 3).2.1 (by decide)⟩

/-- The invocation log of an in-progress dispatch is a sublist of the
snapshot remainder it still has to walk. -/
theorem notifyGo_log_sublist (env : ℕ → Effect) :
    ∀ (l regs : List ℕ), List.Sublist (notifyGo env l regs).1 l := by
  intro l
  induction l with
  | nil => intro regs; simp [notifyGo]
  | cons i rest ih =>
    intro regs
    by_cases h : i ∈ regs
    · simpa [notifyGo, h] using (ih (applyEffect (env i) regs)).cons₂ i
    · simpa [notifyGo, h] using (ih regs).cons i

/-- Once an id is out of the live registration list, and no callback ever
re-subscribes that id, it is never invoked in the rest of the dispatch. -/
theorem notifyGo_removed_not_invoked (env : ℕ → Effect) (i : ℕ)
    (hfresh : ∀ j, i ∉ (env j).subs) :
    ∀ (l regs : List ℕ), i ∉ regs → i ∉ (notifyGo env l regs).1 := by
  intro l
  induction l with
  | nil => intro regs _; simp [notifyGo]
  | cons k rest ih =>
    intro regs h
    by_cases hk : k ∈ regs
    · have hik : i ≠ k := fun e => h (e ▸ hk)
      have h' : i ∉ applyEffect (env k) regs := by
        simp only [applyEffect, List.mem_append, List.mem_filter]
        rintro (⟨hmem, _⟩ | hsub)
        · exact h hmem
        · exact hfresh k hsub
      simp [notifyGo, hk, hik, ih _ h']
    · simp [notifyGo, hk, ih _ h]

/-- An id registered when the dispatch reaches it and never unsubscribed
by any callback is invoked. -/
theorem notifyGo_registered_invoked (env : ℕ → Effect) (i : ℕ)
    (hkeep : ∀ j, i ∉ (env j).unsubs) :
    ∀ (l regs : List ℕ), i ∈ l → i ∈ regs → i ∈ (notifyGo env l regs).1 := by
  intro l
  induction l with
  | nil => intro regs h; simp at h
  | cons k rest ih =>
    intro regs hl hr
    by_cases hk : k ∈ regs
    · rcases List.mem_cons.mp hl with he | hrest
      · simp [notifyGo, hk, he]
      · have h' : i ∈ applyEffect (env k) regs := by
          simp only [applyEffect, List.mem_append, List.mem_filter]
          exact Or.inl ⟨hr, by simpa using hkeep k⟩
        simp [notifyGo, hk, ih _ hrest h']
    · have hik : i ≠ k := fun e => hk (e ▸ hr)
      rcases List.mem_cons.mp hl with he | hrest
      · exact absurd he hik
      · simp [notifyGo, hk, ih _ hrest hr]

/-- C9: during a single `notify` dispatch over the subscription-ordered
snapshot `regs`, (1) each callback registered when `notify` began is
invoked at most once (the log has no duplicates); (2) a subscription added
during the dispatch (its id fresh, hence outside the snapshot) is not
invoked in that same dispatch; (3) a callback unsubscribed during the
dispatch — absent from the live registrations at any point, with no
callback re-subscribing its id — is never invoked from that point on; and
(4) still-registered callbacks, never unsubscribed by anyone, are not
prevented from being invoked. -/
theorem subject_notify_reentrancy (env : ℕ → Effect) (regs : List ℕ)
    (hnodup : regs.Nodup) :
    (notify env regs).1.Nodup
    ∧ (∀ j, j ∉ regs → j ∉ (notify env regs).1)
    ∧ (∀ i, (∀ j, i ∉ (env j).subs) →
        ∀ (l cur : List ℕ), i ∉ cur → i ∉ (notifyGo env l cur).1)
    ∧ (∀ i, i ∈ regs → (∀ j, i ∉ (env j).unsubs) →
        i ∈ (notify env regs).1) := by
  refine ⟨?_, ?_, ?_, ?_⟩
  · exact hnodup.sublist (notifyGo_log_sublist env regs regs)
  · intro j hj hmem
    exact hj ((notifyGo_log_sublist env regs regs).subset hmem)
  · exact fun i hfresh l cur => notifyGo_removed_not_invoked env i hfresh l cur
  · exact fun i hi hkeep => notifyGo_registered_invoked env i hkeep regs regs hi hi

/-- Witness for C9: snapshot `[1,2,3]` under `env0` (callback 1
unsubscribes 2 and subscribes fresh id 4). -/
theorem subject_notify_reentrancy_witness :
    ([1, 2, 3] : List ℕ).Nodup
    ∧ ((notify env0 [1, 2, 3]).1.Nodup
        ∧ (∀ j, j ∉ ([1, 2, 3] : List ℕ) → j ∉ (notify env0 [1, 2, 3]).1)
        ∧ (∀ i, (∀ j, i ∉ (env0 j).subs) →
            ∀ (l cur : List ℕ), i ∉ cur → i ∉ (notifyGo env0 l cur).1)
        ∧ (∀ i, i ∈ ([1, 2, 3] : List ℕ) → (∀ j, i ∉ (env0 j).unsubs) →
            i ∈ (notify env0 [1, 2, 3]).1)) :=
  ⟨by decide, subject_notify_reentrancy env0 [1, 2, 3] (by decide)⟩

end Observable
